import Mathlib

/-!
Verification of the unified chat-completion proxy of the jiuguansaas gateway
(`/api/backends/chat-completions/generate` handler and `gateway/config.js`).

The JavaScript handler is shallowly embedded: message contents, the
meta-bracket scrubbing (`scrubMeta`), intent classification
(`isMathIntentText` / `isStoryIntentText`), anchor derivation, the
system-instruction assembly of the Gemini branch and of the
OpenAI-compatible branch, the Gemini contents conversion, the retry loop
(`fetchWithRetries`), branch selection, credential/base-URL resolution and
the streaming re-chunker are all translated into executable Lean
definitions.  JavaScript regular-expression replacement is modelled by
deterministic scanners that reproduce the engine's leftmost-match,
alternation-in-order, greedy/lazy semantics for the concrete patterns that
occur in the source.  JS `.slice`/`.length` count UTF-16 units; every
string reaching them here is BMP-only, so they are modelled on code points.
-/

/-- JS `\s` character class (also the character set stripped by
`String.prototype.trim`): space, tab, line terminators, and the Unicode
space separators. -/
def isJsWs (c : Char) : Bool :=
  c = ' ' || c = '\t' || c = '\n' || c = '\r' || c = '\x0b' || c = '\x0c' ||
  c = '\u00A0' || c = '\u1680' || (0x2000 ≤ c.toNat && c.toNat ≤ 0x200A) ||
  c = '\u2028' || c = '\u2029' || c = '\u202F' || c = '\u205F' ||
  c = '\u3000' || c = '\uFEFF'

/-- JS line terminators: the characters `.` does not match and at which a
multiline `^`/`$` anchors. -/
def isLineTerm (c : Char) : Bool :=
  c = '\n' || c = '\r' || c.toNat = 0x2028 || c.toNat = 0x2029

/-- Character class `[\d\s\+\-\/*()=]` of the math-intent pattern. -/
def isMathClassChar (c : Char) : Bool :=
  c.isDigit || isJsWs c || c = '+' || c = '-' || c = '/' || c = '*' ||
  c = '(' || c = ')' || c = '='

/-- JS `a || b` on strings: the empty string is falsy. -/
def jsOr (a b : String) : String := if a = "" then b else a

/-- JS `n || d` on numbers: zero is falsy. -/
def jsOrNat (n d : Nat) : Nat := if n = 0 then d else n

/-- ASCII lowering, modelling `String.prototype.toLowerCase` (all strings it
is applied to in the handler are ASCII or already-lowercase CJK). -/
def jsLower (s : String) : String := String.mk (s.data.map Char.toLower)

/-- Substring test: does `needle` occur contiguously in the list? -/
def containsSub (needle : List Char) : List Char → Bool
  | [] => needle.isEmpty
  | c :: r => needle.isPrefixOf (c :: r) || containsSub needle r

/-- Substring test on strings (existence of a match of a literal pattern). -/
def strHas (needle s : String) : Bool := containsSub needle.data s.data

/-- Existence of three consecutive characters satisfying `p`
(a match of `[class]{3,}` exists iff such a run exists). -/
def hasRun3 (p : Char → Bool) : List Char → Bool
  | a :: b :: c :: r => (p a && p b && p c) || hasRun3 p (b :: c :: r)
  | _ => false

/-- Occurrence of `继续` not followed by a non-whitespace character,
modelling the `继续(?!\S)` alternative. -/
def hasJixuBoundary : List Char → Bool
  | [] => false
  | c :: r =>
    (c = '继' && (match r with
      | [] => false
      | d :: s => d = '续' && (match s with
        | [] => true
        | e :: _ => isJsWs e))) || hasJixuBoundary r

/-- Math-intent classifier of both branches (`isMathIntentText` /
`oc_isMathIntent`, identical regexes):
`/只回答数字|只输出|=\?|[\d\s\+\-\/*()=]{3,}/`. -/
def isMathIntentText (s : String) : Bool :=
  strHas "只回答数字" s || strHas "只输出" s || strHas "=?" s ||
  hasRun3 isMathClassChar s.data

/-- Story-intent classifier of both branches (`isStoryIntentText` /
`oc_isStoryIntent`, identical regexes); each alternative of the alternation
is an existence-of-occurrence test, `展开(剧情|故事)?` matches wherever
`展开` occurs and `采取(行动|下一步)` wherever one of its two expansions
occurs. -/
def isStoryIntentText (s : String) : Bool :=
  strHas "剧情推进" s || strHas "继续剧情" s || strHas "推进剧情" s ||
  strHas "采取行动" s || hasJixuBoundary s.data || strHas "继续下去" s ||
  strHas "继续写" s || strHas "接着" s || strHas "推动剧情" s ||
  strHas "推进" s || strHas "展开" s || strHas "下一步" s ||
  strHas "采取下一步" s

/-- Case-insensitive literal matching: drops `pat` (compared through
`toLower`) from the front of `l`, returning the remainder. -/
def ciDrop (pat : List Char) (l : List Char) : Option (List Char) :=
  match pat, l with
  | [], rest => some rest
  | _ :: _, [] => none
  | p :: ps, c :: cs => if c.toLower = p.toLower then ciDrop ps cs else none

/-- Consume `[^\]]*\]`: everything up to and including the next `]`. -/
def closeBracketAfter (l : List Char) : Option (List Char) :=
  match l.dropWhile (fun c => c ≠ ']') with
  | ']' :: r => some r
  | _ => none

/-- Body of the meta-prompt pattern, tried after an opening `[`; the five
alternatives of
`\[(?:Start a new Chat|Start a new group chat\.|Example Chat|Continue your last message[^\]]*|Write the next reply[^\]]*)\]`
in source order (`i` flag: case-insensitive). -/
def metaBody (l : List Char) : Option (List Char) :=
  (ciDrop "Start a new Chat]".data l) <|>
  (ciDrop "Start a new group chat.]".data l) <|>
  (ciDrop "Example Chat]".data l) <|>
  ((ciDrop "Continue your last message".data l).bind closeBracketAfter) <|>
  ((ciDrop "Write the next reply".data l).bind closeBracketAfter)

/-- Global replacement of the meta-prompt pattern by the empty string:
left-to-right scan, each match removed, scanning resuming after the match
(JS `replace` with `g` does not re-scan the produced text). -/
def scrubPats : Nat → List Char → List Char
  | 0, l => l
  | _, [] => []
  | fuel + 1, c :: r =>
    if c = '[' then
      match metaBody r with
      | some rest => scrubPats fuel rest
      | none => c :: scrubPats fuel r
    else c :: scrubPats fuel r

/-- Can `\s*$` match here: some whitespace run from this position reaches
the end of input or a line terminator. -/
def dollarOk : List Char → Bool
  | [] => true
  | c :: r => isLineTerm c || (isJsWs c && dollarOk r)

/-- Suffix of `w` beginning at its last line-terminator character. -/
def splitAtLastLT : List Char → Option (List Char)
  | [] => none
  | c :: r =>
    match splitAtLastLT r with
    | some s => some s
    | none => if isLineTerm c then some (c :: r) else none

/-- Remainder after the greedy `\s*$` at the end of a match: the longest
whitespace prefix whose end position is the end of input or sits before a
line terminator is consumed. -/
def dollarConsume (r : List Char) : List Char :=
  let w := r.takeWhile isJsWs
  let rest := r.dropWhile isJsWs
  if rest.isEmpty then []
  else
    match splitAtLastLT w with
    | some suf => suf ++ rest
    | none => r

/-- Lazy `.*?\]\s*$`: scan for the first `]` whose tail admits `\s*$`;
`.` cannot cross a line terminator. -/
def lazyClose : List Char → Option (List Char)
  | [] => none
  | c :: r =>
    if c = ']' ∧ dollarOk r then some (dollarConsume r)
    else if isLineTerm c then none
    else lazyClose r

/-- Attempt to match `^\s*\[.*?\]\s*$` at a line-start position: the leading
`\s*` must consume exactly the maximal whitespace run (a `[` is not
whitespace, so no backtracking is possible), then the lazy body. -/
def lineScrubMatch (l : List Char) : Option (List Char) :=
  match l.dropWhile isJsWs with
  | c :: r => if c = '[' then lazyClose r else none
  | [] => none

/-- Global replacement of `/^\s*\[.*?\]\s*$/gm` by the empty string:
`atStart` tracks whether the current position is the start of input or
preceded by a line terminator (where the multiline `^` anchors). -/
def scrubLines : Nat → Bool → List Char → List Char
  | 0, _, l => l
  | fuel + 1, atStart, l =>
    match l with
    | [] => []
    | c :: r =>
      match atStart with
      | false => c :: scrubLines fuel (isLineTerm c) r
      | true =>
        match lineScrubMatch (c :: r) with
        | some rest =>
          let consumed := (c :: r).take ((c :: r).length - rest.length)
          scrubLines fuel
            (match consumed.getLast? with
             | some x => isLineTerm x
             | none => true) rest
        | none => c :: scrubLines fuel (isLineTerm c) r

/-- JS `String.prototype.trim`. -/
def trimChars (l : List Char) : List Char :=
  ((l.dropWhile isJsWs).reverse.dropWhile isJsWs).reverse

/-- Trim on strings. -/
def trimStr (s : String) : String := String.mk (trimChars s.data)

/-- List-level body of `scrubMeta`: both regex replacements, then trim. -/
def scrubL (l : List Char) : List Char :=
  let l1 := scrubPats l.length l
  let l2 := scrubLines l1.length true l1
  trimChars l2

/-- The Gemini branch's `scrubMeta` (the OpenAI-compatible branch's
`oc_scrubMeta` performs the same replacements when scrubbing is enabled):
removes SillyTavern meta prompts such as `[Start a new Chat]`, removes
whole bracket-only lines, and trims. -/
def scrubMeta (s : String) : String := String.mk (scrubL s.data)

/-- A part of an array-shaped message content: a plain string or an object
carrying `text`/`content` fields (absent fields modelled as `""`, which is
what the JS falsy chain produces for them). -/
inductive JPart where
  | pstr (s : String)
  | pobj (text content : String)
deriving DecidableEq

/-- Message content as accepted by the handler: a string, an array of
parts, an object with `text`/`content` fields, or nothing. -/
inductive JContent where
  | jstr (s : String)
  | jarr (ps : List JPart)
  | jobj (text content : String)
  | jnull
deriving DecidableEq

/-- An inbound message. -/
structure Message where
  role : String
  content : JContent
deriving DecidableEq

/-- Flattening of one part: `typeof p === 'string' ? p : (p && (p.text || p.content || ''))`. -/
def partText : JPart → String
  | .pstr s => s
  | .pobj t c => jsOr t c

/-- Concatenation of a list of strings. -/
def strConcat : List String → String
  | [] => ""
  | s :: r => s ++ strConcat r

/-- `Array.prototype.join(sep)`. -/
def joinSep (sep : String) : List String → String
  | [] => ""
  | [s] => s
  | s :: r => s ++ sep ++ joinSep sep r

/-- Raw flattening of a content value, shared by every `toText` in the
handler: strings pass through, arrays join their part texts with `''`,
objects yield `text || content || ''`, anything else yields `''`. -/
def contentFlat : JContent → String
  | .jstr s => s
  | .jarr ps => strConcat (ps.map partText)
  | .jobj t c => jsOr t c
  | .jnull => ""

/-- The Gemini branch's `toText`: flatten, then scrub meta prompts
(`scrubMeta` is applied in every non-null case). -/
def toTextG (m : Message) : String :=
  match m.content with
  | .jnull => ""
  | c => scrubMeta (contentFlat c)

/-- The plain `toText` used by the OpenAI-compatible branch and the demo
fallback branch: flatten without scrubbing. -/
def toTextPlain (m : Message) : String := contentFlat m.content

/-- JS `String(v)` of a content value, as used on `last.content || ''` in
the Gemini no-key fallback: strings pass through, arrays stringify by
joining element strings with `,`, plain objects print `[object Object]`,
missing content is falsy and replaced by `''`. -/
def jsStringOfContent : JContent → String
  | .jstr s => s
  | .jarr ps => joinSep "," (ps.map (fun p =>
      match p with
      | .pstr s => s
      | .pobj _ _ => "[object Object]"))
  | .jobj _ _ => "[object Object]"
  | .jnull => ""

/-- `getLastNonEmptyText` of the Gemini branch: last message (scanning from
the end) whose scrubbed text trims non-empty. -/
def getLastNonEmptyTextG : List Message → String
  | [] => ""
  | m :: r =>
    let rest := getLastNonEmptyTextG r
    if rest ≠ "" then rest else
      let t := trimStr (toTextG m)
      if t ≠ "" then t else ""

/-- Same scan with the plain (unscrubbed) `toText`, as in the
OpenAI-compatible branch's inline `lastAnyText2` loop. -/
def getLastNonEmptyTextPlain : List Message → String
  | [] => ""
  | m :: r =>
    let rest := getLastNonEmptyTextPlain r
    if rest ≠ "" then rest else
      let t := trimStr (toTextPlain m)
      if t ≠ "" then t else ""

/-- `messages.slice().reverse().find(m => role === 'user')`. -/
def lastUserMsg (msgs : List Message) : Option Message :=
  msgs.reverse.find? (fun m => jsLower m.role == "user")

/-- Gemini branch `lastUserText` (lines 1412–1420): the text of the last
user-role message; when that is empty, the decoded `x-st-last-input`
header (`hdr` is the decoded header value, `""` when the header is absent). -/
def lastUserTextG (msgs : List Message) (hdr : String) : String :=
  let t := match lastUserMsg msgs with
           | some m => toTextG m
           | none => ""
  if t ≠ "" then t else hdr

/-- OpenAI-compatible branch `lastUserText2`: same computation with the
plain `toText`. -/
def lastUserTextOC (msgs : List Message) (hdr : String) : String :=
  let t := match lastUserMsg msgs with
           | some m => toTextPlain m
           | none => ""
  if t ≠ "" then t else hdr

/-- Gemini branch `anchorBase` (line 1436): `lastUserText || lastAnyText`.
The further system-text extraction tier (lines 1437–1440) is unreachable:
a non-empty `systemText` forces a non-empty `lastAnyText` (see
`systemText_forces_lastAny`), so `anchorBase` is never empty there. -/
def anchorG (msgs : List Message) (hdr : String) : String :=
  let lu := lastUserTextG msgs hdr
  if lu ≠ "" then lu else getLastNonEmptyTextG msgs

/-- OpenAI-compatible branch `anchorBase2`. -/
def anchorOC (msgs : List Message) (hdr : String) : String :=
  let lu := lastUserTextOC msgs hdr
  if lu ≠ "" then lu else getLastNonEmptyTextPlain msgs

/-- Gemini branch `systemText`: scrubbed texts of the system-role messages,
non-empty ones joined with newlines. -/
def systemTextG (msgs : List Message) : String :=
  joinSep "\n"
    (((msgs.filter (fun m => jsLower m.role = "system")).map toTextG).filter
      (fun s => s ≠ ""))

/-- Gateway configuration (`gateway/config.js`), restricted to the options
the generate endpoint reads.  Numeric options are modelled as naturals
(every default and every use site is a non-negative integer). -/
structure GatewayConfig where
  injectChineseOnZhUI : Bool
  chineseInstructionText : String
  forceUserPriority : Bool
  userPriorityTextZH : String
  userPriorityTextEN : String
  roleplayEnforcer : Bool
  roleplayInstructionZH : String
  roleplayInstructionEN : String
  roleplayUseCharacterCard : Bool
  roleplayCardTemplateZH : String
  roleplayCardTemplateEN : String
  roleplayUseWorldInfo : Bool
  roleplayWorldItems : Nat
  roleplayWorldTemplateZH : String
  roleplayWorldTemplateEN : String
  roleplayWorldItemBulletZH : String
  roleplayWorldItemBulletEN : String
  worldClampChars : Nat
  strictLatestOnly : Bool
  strictLatestDropPersona : Bool
  chatHistoryTurns : Nat
  intentAnchor : Bool
  intentAnchorClamp : Nat
  intentAnchorTextZH : String
  intentAnchorTextEN : String
  hardIntentAppend : Bool
  hardIntentSuffixZH : String
  hardIntentSuffixEN : String
  intentRuleMath : Bool
  intentRuleMathTextZH : String
  intentRuleMathTextEN : String
  intentRuleStory : Bool
  intentRuleStoryTextZH : String
  intentRuleStoryTextEN : String
  scrubStMetaPrompts : Bool
  geminiMaxOutputTokens : Nat
  openaiCompatMaxTokens : Nat
  geminiRetryCount : Nat
  geminiRetryDelayMs : Nat
deriving DecidableEq

/-- The configuration produced by `gateway/config.js` when no overriding
environment variable is set. -/
def defaultConfig : GatewayConfig where
  injectChineseOnZhUI := true
  chineseInstructionText := "请用中文回复"
  forceUserPriority := true
  userPriorityTextZH := "请直接回应用户最新一句，不要重复开场白；如与设定冲突，以用户最新请求为准。若用户提出计算或事实问题，请直接给出结果。"
  userPriorityTextEN := "Directly respond to the latest user message without repeating greetings. If it conflicts with persona, prioritize the latest user request. For calculations or factual questions, answer directly."
  roleplayEnforcer := false
  roleplayInstructionZH := "你正在扮演「{char}」，需遵循角色卡、世界观与当前聊天历史，不要重启对话或自我介绍，用中文并保持角色口吻自然回应「{user}」。"
  roleplayInstructionEN := "You are roleplaying as \"{char}\". Follow the character sheet, world info and current chat history. Do not restart the conversation or re-introduce yourself. Reply naturally in character to \"{user}\"."
  roleplayUseCharacterCard := false
  roleplayCardTemplateZH := "角色卡（精要）：\n姓名：{name}\n设定：{description}\n性格：{personality}\n场景：{scenario}\n开场示例：{first_mes}"
  roleplayCardTemplateEN := "Character Card (Brief):\nName: {name}\nDescription: {description}\nPersonality: {personality}\nScenario: {scenario}\nFirst Message Example: {first_mes}"
  roleplayUseWorldInfo := false
  roleplayWorldItems := 3
  roleplayWorldTemplateZH := "世界观（精要，最多{n}条）：\n{items}"
  roleplayWorldTemplateEN := "World Info (brief, up to {n}):\n{items}"
  roleplayWorldItemBulletZH := "- {text}"
  roleplayWorldItemBulletEN := "- {text}"
  worldClampChars := 800
  strictLatestOnly := false
  strictLatestDropPersona := false
  chatHistoryTurns := 8
  intentAnchor := true
  intentAnchorClamp := 400
  intentAnchorTextZH := "最新用户意图（最高优先级）：「{lastUser}」。请紧扣此意图推进剧情，不要寒暄或重启。"
  intentAnchorTextEN := "Latest user intent (highest priority): \"{lastUser}\". Please stick to it to advance the scene without small talk or restarts."
  hardIntentAppend := true
  hardIntentSuffixZH := "（请直接据此回应）"
  hardIntentSuffixEN := " (please respond to this directly)"
  intentRuleMath := true
  intentRuleMathTextZH := "如果最新意图包含算式或“只回答数字”，仅输出阿拉伯数字结果。"
  intentRuleMathTextEN := "If the latest intent contains a formula or requests numbers only, output only the numeric result."
  intentRuleStory := true
  intentRuleStoryTextZH := "如果最新意图包含“剧情推进/继续剧情/采取行动”，请立刻在既有世界观内执行下一步具体行动，避免寒暄与重启。"
  intentRuleStoryTextEN := "If the latest intent says to advance/continue/act, immediately take the next concrete action within the existing world without small talk or restarts."
  scrubStMetaPrompts := true
  geminiMaxOutputTokens := 1024
  openaiCompatMaxTokens := 1024
  geminiRetryCount := 2
  geminiRetryDelayMs := 400

/-- Does the lowercase `accept-language` header denote a Chinese variant
(`/^zh/` test)? -/
def isZh (lang : String) : Bool := "zh".data.isPrefixOf lang.data

/-- JS `String.prototype.slice(0, n)` on BMP strings. -/
def strTake (n : Nat) (s : String) : String := String.mk (s.data.take n)

/-- Replacement of the first occurrence of a literal string pattern, as JS
`String.prototype.replace(stringPattern, replacement)` (the replacement
strings at play contain no `$` substitution patterns). -/
def replFirstL (pat rep : List Char) : Nat → List Char → List Char
  | 0, l => l
  | _, [] => if pat.isEmpty then rep else []
  | fuel + 1, c :: r =>
    if pat.isPrefixOf (c :: r) then rep ++ (c :: r).drop pat.length
    else c :: replFirstL pat rep fuel r

/-- `replFirstL` on strings. -/
def replFirst (pat rep s : String) : String :=
  String.mk (replFirstL pat.data rep.data s.data.length s.data)

/-- A character card as stored by the gateway (fields the card template
substitutes; absent fields are `""`). -/
structure CharCard where
  name : String
  description : String
  personality : String
  scenario : String
  first_mes : String
deriving DecidableEq

/-- A world-info entry; `json` is its `JSON.stringify` serialization, used
as the final fallback of the falsy chain (serialization itself is not
re-modelled). -/
structure WItem where
  text : String
  content : String
  description : String
  name : String
  json : String
deriving DecidableEq

/-- Fragment: verbatim request system text
(`if (systemText && !config.strictLatestDropPersona)`). -/
def fragSys (cfg : GatewayConfig) (sysText : String) : List String :=
  if sysText ≠ "" ∧ cfg.strictLatestDropPersona = false then [sysText] else []

/-- Fragment: Chinese language directive
(`if (config.injectChineseOnZhUI && /^zh/.test(acceptLang))`). -/
def fragLang (cfg : GatewayConfig) (lang : String) : List String :=
  if cfg.injectChineseOnZhUI = true ∧ isZh lang = true then
    [jsOr cfg.chineseInstructionText "请用中文回复"]
  else []

/-- The math intent-rule text selected by UI language
(`/^zh/.test(acceptLang) ? config.intentRuleMathTextZH : config.intentRuleMathTextEN`). -/
def mathRuleText (cfg : GatewayConfig) (lang : String) : String :=
  if isZh lang then cfg.intentRuleMathTextZH else cfg.intentRuleMathTextEN

/-- The story intent-rule text selected by UI language. -/
def storyRuleText (cfg : GatewayConfig) (lang : String) : String :=
  if isZh lang then cfg.intentRuleStoryTextZH else cfg.intentRuleStoryTextEN

/-- Fragment pair: math/story intent rules fired on the text `t`
(the body shared by the last-user-text block and the anchor block, in both
branches). -/
def fragRules (cfg : GatewayConfig) (lang : String) (t : String) : List String :=
  if cfg.strictLatestOnly = false ∧ t ≠ "" then
    (if cfg.intentRuleMath = true ∧ isMathIntentText t = true then
      if mathRuleText cfg lang ≠ "" then [mathRuleText cfg lang] else []
    else []) ++
    (if cfg.intentRuleStory = true ∧ isStoryIntentText t = true then
      if storyRuleText cfg lang ≠ "" then [storyRuleText cfg lang] else []
    else [])
  else []

/-- Fragment: intent-anchor directive embedding a clamped copy of `t`;
`guardMath` is true for the two Gemini-branch occurrences (which skip when
math intent fired) and false for the OpenAI-compatible occurrence (which
has no such guard). -/
def fragAnchorDir (cfg : GatewayConfig) (lang : String) (t : String)
    (guardMath mathIntent : Bool) : List String :=
  if cfg.strictLatestOnly = false ∧ cfg.intentAnchor = true ∧ t ≠ "" ∧
      (guardMath = false ∨ mathIntent = false) then
    let brief := strTake (max 40 (jsOrNat cfg.intentAnchorClamp 400)) t
    let tpl := if isZh lang then cfg.intentAnchorTextZH else cfg.intentAnchorTextEN
    let anchor := replFirst "{lastUser}" brief tpl
    if trimStr anchor ≠ "" then [anchor] else []
  else []

/-- Fragment: character-card brief; `uid` is `auth?.uid || ''` and `chars`
the user's character list read from the store. -/
def fragCard (cfg : GatewayConfig) (lang : String) (charName uid : String)
    (chars : List CharCard) : List String :=
  if cfg.strictLatestDropPersona = false ∧ cfg.roleplayUseCharacterCard = true ∧
      charName ≠ "" ∧ uid ≠ "" then
    match chars.find? (fun c => jsLower c.name == jsLower charName) with
    | some c =>
      let tpl := if isZh lang then cfg.roleplayCardTemplateZH else cfg.roleplayCardTemplateEN
      let persona :=
        replFirst "{first_mes}" c.first_mes
          (replFirst "{scenario}" c.scenario
            (replFirst "{personality}" c.personality
              (replFirst "{description}" c.description
                (replFirst "{name}" c.name tpl))))
      if trimStr persona ≠ "" then [persona] else []
    | none => []
  else []

/-- Rendered text of one world-info entry:
`String(it?.text || it?.content || it?.description || it?.name || JSON.stringify(it)).trim()`. -/
def wItemText (it : WItem) : String :=
  trimStr (jsOr it.text (jsOr it.content (jsOr it.description (jsOr it.name it.json))))

/-- Fragment: world-info brief; `dropGuard` is true for the first
Gemini-branch occurrence (guarded by `!config.strictLatestDropPersona`) and
false for the second occurrence (lines 1575–1595), which lacks that guard. -/
def fragWorld (cfg : GatewayConfig) (lang : String) (uid : String)
    (items : List WItem) (dropGuard : Bool) : List String :=
  if (dropGuard = false ∨ cfg.strictLatestDropPersona = false) ∧
      cfg.roleplayUseWorldInfo = true ∧ uid ≠ "" then
    let n := max 1 (jsOrNat cfg.roleplayWorldItems 3)
    let picked := items.take n
    let bulletT := if isZh lang then jsOr cfg.roleplayWorldItemBulletZH "- {text}"
                   else jsOr cfg.roleplayWorldItemBulletEN "- {text}"
    let bullets := joinSep "\n" (picked.map (fun it => replFirst "{text}" (wItemText it) bulletT))
    let tpl := if isZh lang then cfg.roleplayWorldTemplateZH else cfg.roleplayWorldTemplateEN
    let wiText := replFirst "{items}" bullets (replFirst "{n}" (toString picked.length) tpl)
    let clamp := max 200 (jsOrNat cfg.worldClampChars 800)
    let wiText := if clamp < wiText.data.length then strTake clamp wiText else wiText
    if trimStr wiText ≠ "" then [wiText] else []
  else []

/-- Fragment: roleplay-enforcer directive naming character and user. -/
def fragEnforcer (cfg : GatewayConfig) (lang : String) (charName userName : String) :
    List String :=
  if cfg.strictLatestDropPersona = false ∧ cfg.roleplayEnforcer = true ∧
      (charName ≠ "" ∨ userName ≠ "") then
    let tpl := if isZh lang then cfg.roleplayInstructionZH else cfg.roleplayInstructionEN
    let text := replFirst "{user}" (jsOr userName "用户")
                  (replFirst "{char}" (jsOr charName "角色") tpl)
    if text ≠ "" then [text] else []
  else []

/-- Fragment: user-priority directive.  Pushed unconditionally when the
toggle is on, even when the configured text is empty (the empty entry is
later removed by `filter(Boolean)` in `sysCombined`). -/
def fragPrio (cfg : GatewayConfig) (lang : String) : List String :=
  if cfg.forceUserPriority = true then
    [if isZh lang then cfg.userPriorityTextZH else cfg.userPriorityTextEN]
  else []

/-- System-instruction fragment list built by the Gemini branch
(lines 1465–1611), in push order: verbatim system text; language directive;
intent rules fired on the last user text; intent rules fired on the anchor;
anchor-based intent-anchor directive; character card; world info;
roleplay enforcer; user priority; a second world-info block (the block
labelled "OpenAI-compatible" that actually sits inside the Gemini branch);
last-user-based intent-anchor directive. -/
def sysListGemini (cfg : GatewayConfig) (lang sysText charName userName uid : String)
    (chars : List CharCard) (items : List WItem) (lastUserText anchorBase : String) :
    List String :=
  let mathIntent := isMathIntentText lastUserText || isMathIntentText anchorBase
  let l := fragSys cfg sysText
  let l := l ++ fragLang cfg lang
  let l := l ++ fragRules cfg lang lastUserText
  let l := l ++ fragRules cfg lang anchorBase
  let l := l ++ fragAnchorDir cfg lang anchorBase true mathIntent
  let l := l ++ fragCard cfg lang charName uid chars
  let l := l ++ fragWorld cfg lang uid items true
  let l := l ++ fragEnforcer cfg lang charName userName
  let l := l ++ fragPrio cfg lang
  let l := l ++ fragWorld cfg lang uid items false
  let l := l ++ fragAnchorDir cfg lang lastUserText true mathIntent
  l

/-- System-instruction fragment list built by the OpenAI-compatible branch
when `preserveMessageStructure` is off (lines 1856–1938), in push order:
verbatim system text; language directive; character card; roleplay
enforcer; user priority; intent rules fired on the last user text; intent
rules fired on the anchor; last-user-based intent-anchor directive (with no
math-intent guard).  No world-info fragment is pushed in this branch. -/
def sysListCompat (cfg : GatewayConfig) (lang sysText charName userName uid : String)
    (chars : List CharCard) (lastUserText anchorBase : String) : List String :=
  let l := fragSys cfg sysText
  let l := l ++ fragLang cfg lang
  let l := l ++ fragCard cfg lang charName uid chars
  let l := l ++ fragEnforcer cfg lang charName userName
  let l := l ++ fragPrio cfg lang
  let l := l ++ fragRules cfg lang lastUserText
  let l := l ++ fragRules cfg lang anchorBase
  let l := l ++ fragAnchorDir cfg lang lastUserText false false
  l

/-- `sysList.filter(Boolean).join('\n')`. -/
def sysCombined (l : List String) : String :=
  joinSep "\n" (l.filter (fun s => s ≠ ""))

/-- One entry of the Gemini `contents` array
(`{role, parts:[{text}]}` with a single text part throughout the handler). -/
structure GTurn where
  role : String
  text : String
deriving DecidableEq

/-- `roleMap[String(m.role||'user').toLowerCase()] || 'user'` with
`roleMap = {user:'user', assistant:'model'}`. -/
def gRole (role : String) : String :=
  if jsLower (jsOr role "user") = "assistant" then "model" else "user"

/-- Role conversion of the Gemini branch (lines 1380–1402): drop
system-role turns, keep user/assistant turns, clip to the last
`max 2 (chatHistoryTurns*2)` of them, map roles and scrub texts, drop
empty-text turns; if nothing remains, synthesize a single user turn from
the last non-empty message text. -/
def geminiConvert (cfg : GatewayConfig) (msgs : List Message) : List GTurn :=
  let nonSys := msgs.filter (fun m => jsLower m.role ≠ "system")
  let turns := nonSys.filter (fun m => jsLower m.role = "user" ∨ jsLower m.role = "assistant")
  let keep := max 2 (jsOrNat cfg.chatHistoryTurns 8 * 2)
  let clipped := turns.drop (turns.length - keep)
  let contents := (clipped.map (fun m => GTurn.mk (gRole m.role) (toTextG m))).filter
    (fun x => trimStr x.text ≠ "")
  if contents.isEmpty then
    let allTexts := (msgs.map (fun m => trimStr (toTextG m))).filter (fun s => s ≠ "")
    match allTexts.getLast? with
    | some t => [GTurn.mk "user" t]
    | none => []
  else contents

/-- The Gemini branch `contents` as finally sent upstream
(conversion, lines 1443–1458 latest-user injection and anchor injection,
line 1597 strict-latest collapse, lines 1615–1624 hard intent append). -/
def geminiContentsFinal (cfg : GatewayConfig) (msgs : List Message)
    (hdr lang : String) : List GTurn :=
  let contents := geminiConvert cfg msgs
  let lastUserText := lastUserTextG msgs hdr
  let anchorBase := anchorG msgs hdr
  let mathIntent := isMathIntentText lastUserText || isMathIntentText anchorBase
  let contents :=
    if lastUserText ≠ "" then
      let lastUserInPayload :=
        match (contents.filter (fun x => x.role = "user")).getLast? with
        | some x => x.text
        | none => ""
      if (contents.filter (fun x => x.role = "user")).isEmpty ∨
          trimStr lastUserInPayload ≠ trimStr lastUserText then
        contents ++ [GTurn.mk "user" lastUserText]
      else contents
    else contents
  let contents :=
    if contents.all (fun x => x.role ≠ "user") ∧ anchorBase ≠ "" then
      contents ++ [GTurn.mk "user" anchorBase]
    else contents
  let contents :=
    if cfg.strictLatestOnly = true then
      [GTurn.mk "user" (trimStr (jsOr lastUserText anchorBase))]
    else contents
  if cfg.strictLatestOnly = false ∧ cfg.hardIntentAppend = true ∧ anchorBase ≠ "" ∧
      mathIntent = false then
    let brief := strTake (max 40 (jsOrNat cfg.intentAnchorClamp 400)) anchorBase
    let suffix := if isZh lang then cfg.hardIntentSuffixZH else cfg.hardIntentSuffixEN
    contents ++ [GTurn.mk "user" (brief ++ suffix)]
  else contents

/-- Outcome of one transport attempt: an HTTP response (any status) or a
thrown transport error carrying `err.message`. -/
inductive Attempt where
  | resp (status : Nat) (text : String)
  | exn (msg : String)
deriving DecidableEq

/-- Result shape `{ok, status, text}` of `fetchWithRetries`. -/
structure FetchResult where
  ok : Bool
  status : Nat
  text : String
deriving DecidableEq

/-- `Response.ok`: status in the 2xx range. -/
def okStatus (s : Nat) : Prop := 200 ≤ s ∧ s ≤ 299

instance (s : Nat) : Decidable (okStatus s) := by unfold okStatus; infer_instance

/-- The statuses the Gemini branch retries on: 429 or 5xx. -/
def retryableStatus (s : Nat) : Prop := s = 429 ∨ (500 ≤ s ∧ s ≤ 599)

instance (s : Nat) : Decidable (retryableStatus s) := by unfold retryableStatus; infer_instance

/-- Loop body of `fetchWithRetries` (lines 1288–1317).  `attempts` holds
the outcomes of the attempts still allowed (initially `retries + 1` many,
so `rest ≠ []` is exactly the `i < retries` retry-budget check); `i` is the
attempt index (the backoff exponent); `lt`/`ls`/`le` are the
`lastTxt`/`lastStatus`/`lastErrTxt` accumulators.  Returns the result
together with the list of backoff delays waited (`delay * 2^i` per retry). -/
def fetchLoop (delay : Nat) : List Attempt → Nat → String → Nat → String →
    FetchResult × List Nat
  | [], _, lt, ls, le => (FetchResult.mk false ls (jsOr lt (jsOr le "request failed")), [])
  | a :: rest, i, lt, ls, le =>
    match a with
    | .resp s t =>
      if okStatus s then (FetchResult.mk true s t, [])
      else if rest ≠ [] ∧ retryableStatus s then
        let p := fetchLoop delay rest (i + 1) t s le
        (p.1, delay * 2 ^ i :: p.2)
      else (FetchResult.mk false s t, [])
    | .exn m =>
      if rest ≠ [] then
        let p := fetchLoop delay rest (i + 1) lt ls m
        (p.1, delay * 2 ^ i :: p.2)
      else (FetchResult.mk false ls (jsOr lt (jsOr m "request failed")), [])

/-- `fetchWithRetries` of the Gemini branch: up to
`retries = max(0, config.geminiRetryCount)` additional attempts with
backoff `delay * 2^i`; `oracle i` is the outcome of attempt `i`. -/
def fetchWithRetries (retries delay : Nat) (oracle : Nat → Attempt) :
    FetchResult × List Nat :=
  fetchLoop delay ((List.range (retries + 1)).map oracle) 0 "" 0 ""

/-- Prepend an attempt outcome to an outcome sequence. -/
def consOracle (a : Attempt) (f : Nat → Attempt) : Nat → Attempt
  | 0 => a
  | n + 1 => f n

/-- A gateway error response (`res.status(httpStatus).json({status, message})`). -/
structure GatewayError where
  httpStatus : Nat
  upstreamStatus : Nat
  message : String
deriving DecidableEq

/-- The OpenAI-compatible branch's upstream call (lines 2058–2065): one
bare `fetch`, no retry wrapper.  A non-2xx status is immediately surfaced
as a 502 carrying the upstream status and the body truncated to 500
characters; a thrown transport error propagates to the handler's outer
catch, which answers 500 `Generation failed`. -/
def ocUpstreamCall : Attempt → Except GatewayError String
  | .resp s t =>
    if okStatus s then .ok t
    else .error (GatewayError.mk 502 s (strTake 500 t))
  | .exn _ => .error (GatewayError.mk 500 0 "Generation failed")

/-- Provider branch selected by the generate endpoint. -/
inductive Branch where
  | gemini
  | openaiCompat
  | demo
deriving DecidableEq

/-- Case-insensitive `/^gemini/i` test. -/
def modelIsGemini (model : String) : Bool :=
  (ciDrop "gemini".data model.data).isSome

/-- Branch selection (lines 1286 and 1722): Gemini when
`chat_completion_source` lowercases to `makersuite` or the model name
matches `/^gemini/i`; OpenAI-compatible for the four listed sources;
otherwise the demo fallback. -/
def branchOf (rawSource model : String) : Branch :=
  let source := jsLower rawSource
  if source = "makersuite" ∨ modelIsGemini model then .gemini
  else if source = "openai" ∨ source = "custom" ∨ source = "generic" ∨
      source = "openrouter" then .openaiCompat
  else .demo

/-- Reply of the demo fallback branch (lines 2082–2104): a canned echo of
the flattened, trimmed text of the last message; no upstream call exists in
this branch. -/
def demoReply (msgs : List Message) : String :=
  let userText := trimStr (match msgs.getLast? with
    | some m => toTextPlain m
    | none => "")
  if userText ≠ "" then "（演示回复）你说：" ++ userText
  else "（演示回复）你好，我在这里。"

/-- Gemini-branch API-key resolution (lines 1363–1369):
user-scope secret, then `MAKERSUITE_API_KEY`, then guest-scope secret
(each parameter is the looked-up value, `""` when absent). -/
def geminiKeyResolve (userVal envVal guestVal : String) : String :=
  jsOr (jsOr userVal envVal) guestVal

/-- Routing decision of a networked branch: degrade to a canned echo reply
(HTTP 200), or proceed to the upstream call. -/
inductive NetRoute where
  | demoEcho (reply : String)
  | upstream (base token : String)
deriving DecidableEq

/-- Gemini-branch no-key fallback reply (lines 1372–1376): echo of
`String(last.content || '').trim()`, `'...'` when empty. -/
def geminiNoKeyReply (msgs : List Message) : String :=
  let userText := trimStr (match msgs.getLast? with
    | some m => jsStringOfContent m.content
    | none => "")
  "（未配置 Google API Key，返回演示）你说：" ++ jsOr userText "..."

/-- Gemini branch credential gate (lines 1363–1377): with no resolvable
key, answer the canned echo with HTTP success; otherwise proceed (the base
URL is the fixed Google endpoint). -/
def geminiRoute (msgs : List Message) (userVal envVal guestVal : String) : NetRoute :=
  let apiKey := geminiKeyResolve userVal envVal guestVal
  if apiKey = "" then .demoEcho (geminiNoKeyReply msgs)
  else .upstream "https://generativelanguage.googleapis.com" apiKey

/-- Source selector within the OpenAI-compatible branch. -/
inductive OCSource where
  | openai
  | custom
  | generic
  | openrouter
deriving DecidableEq

/-- Removal of one trailing `/` (`replace(/\/$/, '')`). -/
def dropTrailSlash (s : String) : String :=
  match s.data.reverse with
  | '/' :: r => String.mk r.reverse
  | _ => s

/-- OpenAI-compatible key resolution (lines 1727–1732): uid-scoped secret,
then (when the uid is not already `guest`) the guest-scoped secret, then
the per-source environment default. -/
def ocKeyResolve (_src : OCSource) (uid userVal guestVal envVal : String) : String :=
  jsOr (jsOr userVal (if uid ≠ "guest" then guestVal else "")) envVal

/-- OpenAI-compatible base-URL resolution (lines 1736–1740):
OpenRouter prefers `reverse_proxy` then `custom_url` then the fixed
OpenRouter base; the other sources prefer `custom_url` then
`reverse_proxy` then `OPENAI_COMPAT_BASE` then the OpenAI default (empty
for custom/generic); one trailing slash is stripped. -/
def ocBaseResolve (src : OCSource) (bodyCustom bodyReverse envBase : String) : String :=
  let baseDefault :=
    match src with
    | .openrouter => "https://openrouter.ai/api/v1"
    | .openai => "https://api.openai.com"
    | _ => ""
  let baseRaw :=
    match src with
    | .openrouter => jsOr bodyReverse (jsOr bodyCustom baseDefault)
    | _ => jsOr bodyCustom (jsOr bodyReverse (jsOr envBase baseDefault))
  dropTrailSlash baseRaw

/-- OpenAI-compatible no-base fallback reply (lines 1749–1752). -/
def ocNoBaseReply (src : OCSource) (msgs : List Message) : String :=
  let label := match src with
    | .openrouter => "OpenRouter"
    | _ => "OpenAI"
  let userText := trimStr (match msgs.getLast? with
    | some m => toTextPlain m
    | none => "")
  if userText ≠ "" then "（" ++ label ++ "代理未配置）你说：" ++ userText
  else "（" ++ label ++ "代理未配置）"

/-- OpenAI-compatible branch routing (lines 1727–1759 and 2044–2058): the
canned echo is taken exactly when no base URL resolves; the resolved
credential (or the reverse-proxy password) only selects the bearer token of
the upstream call and never triggers the fallback. -/
def ocRoute (src : OCSource) (uid userVal guestVal envVal : String)
    (bodyCustom bodyReverse envBase proxyPassword : String)
    (msgs : List Message) : NetRoute :=
  let apiKey := ocKeyResolve src uid userVal guestVal envVal
  let base := ocBaseResolve src bodyCustom bodyReverse envBase
  if base = "" then .demoEcho (ocNoBaseReply src msgs)
  else .upstream base (jsOr proxyPassword apiKey)

/-- Split into the maximal runs of non-line-terminator characters, in
order, empty runs omitted — the successive match positions of `/./g`-style
scanning. -/
def runsF : Nat → List Char → List (List Char)
  | 0, _ => []
  | _, [] => []
  | fuel + 1, c :: r =>
    if isLineTerm c then runsF fuel r
    else
      (c :: r).takeWhile (fun x => !isLineTerm x) ::
        runsF fuel ((c :: r).dropWhile (fun x => !isLineTerm x))

/-- Chop a list into consecutive pieces of (at most) 120 elements. -/
def chopF : Nat → List Char → List (List Char)
  | 0, _ => []
  | _, [] => []
  | fuel + 1, l => l.take 120 :: chopF fuel (l.drop 120)

/-- `reply.match(/.{1,120}/g) || ['']` of the streaming re-chunker
(line 1696): every maximal newline-free segment is cut into pieces of at
most 120 characters; with no match at all the fallback is `['']`. -/
def matchChunks (s : String) : List String :=
  let ps := ((runsF s.data.length s.data).map (fun run => chopF run.length run)).flatten
  if ps.isEmpty then [""] else ps.map String.mk

/-- One emitted stream event: an incremental text chunk, or the final
literal `[DONE]` line. -/
inductive StreamEvent where
  | chunk (text : String)
  | done
deriving DecidableEq

/-- Event sequence emitted for a streaming Gemini-branch reply
(lines 1693–1715): one chunk event per piece of the re-chunked aggregated
reply, then the `[DONE]` terminator. -/
def geminiStream (reply : String) : List StreamEvent :=
  (matchChunks reply).map StreamEvent.chunk ++ [StreamEvent.done]

/-- The reply with its line terminators removed. -/
def removeLineTerms (s : String) : String :=
  String.mk (s.data.filter (fun c => !isLineTerm c))

/-- Anchor fallback as claim C5 words it: the last non-empty user
utterance; else the last non-empty utterance of any role; else the
out-of-band hint header. -/
def specAnchorClaimed (msgs : List Message) (hdr : String) : String :=
  let u := getLastNonEmptyTextG (msgs.filter (fun m => jsLower m.role = "user"))
  if u ≠ "" then u else
    let a := getLastNonEmptyTextG msgs
    if a ≠ "" then a else hdr

/-- Anchor fallback as the code actually computes it, written from the
amended claim's words: the text of the last user-role message; if that is
empty, the hint header; if still empty, the last non-empty utterance of any
role. -/
def specAnchorAmended (msgs : List Message) (hdr : String) : String :=
  let u := match lastUserMsg msgs with
           | some m => toTextG m
           | none => ""
  if u ≠ "" then u
  else if hdr ≠ "" then hdr
  else getLastNonEmptyTextG msgs

theorem aux_dropWhile_idem (p : Char → Bool) (l : List Char) :
    (l.dropWhile p).dropWhile p = l.dropWhile p := by
  induction l with
  | nil => rfl
  | cons c r ih =>
    by_cases h : p c
    · simp [List.dropWhile_cons, h, ih]
    · simp [List.dropWhile_cons, h]

theorem aux_dropWhile_head (p : Char → Bool) (l : List Char) (a : Char) (t : List Char)
    (h : l.dropWhile p = a :: t) : p a = false := by
  induction l with
  | nil => simp at h
  | cons c r ih =>
    by_cases hc : p c
    · exact ih (by simpa [List.dropWhile_cons, hc] using h)
    · simp [List.dropWhile_cons, hc] at h
      simp [← h.1, hc]

theorem aux_trim_trim (l : List Char) : trimChars (trimChars l) = trimChars l := by
  unfold trimChars
  set p := isJsWs with hp
  set d1 := l.dropWhile p with hd1
  set e := d1.reverse.dropWhile p with he
  have hstep1 : e.reverse.dropWhile p = e.reverse := by
    cases her : e.reverse with
    | nil => rfl
    | cons a w =>
      have hsuf : e <:+ d1.reverse := he ▸ List.dropWhile_suffix p
      have hpref : e.reverse <+: d1 := by
        have h2 : e.reverse <+: d1.reverse.reverse := List.reverse_prefix.mpr hsuf
        simpa using h2
      obtain ⟨t, ht⟩ := hpref
      have hd1eq : d1 = a :: (w ++ t) := by rw [← ht, her]; simp
      have hpa : p a = false := aux_dropWhile_head p l a (w ++ t) (hd1 ▸ hd1eq)
      simp [List.dropWhile_cons, hpa]
  calc ((e.reverse.dropWhile p).reverse.dropWhile p).reverse
      = ((e.reverse).reverse.dropWhile p).reverse := by rw [hstep1]
    _ = (e.dropWhile p).reverse := by simp
    _ = e.reverse := by rw [he, aux_dropWhile_idem]

theorem aux_trimStr_trimStr (s : String) : trimStr (trimStr s) = trimStr s := by
  unfold trimStr
  exact congrArg String.mk (aux_trim_trim s.data)

theorem aux_scrubPats_id (fuel : Nat) (l : List Char) (hf : l.length ≤ fuel)
    (hb : '[' ∉ l) : scrubPats fuel l = l := by
  induction fuel generalizing l with
  | zero => cases l with
    | nil => rfl
    | cons c r => simp at hf
  | succ f ih =>
    cases l with
    | nil => rfl
    | cons c r =>
      have hc : c ≠ '[' := by
        intro h
        exact hb (h ▸ List.mem_cons_self c r)
      have hr : '[' ∉ r := fun h => hb (List.mem_cons_of_mem c h)
      have hfr : r.length ≤ f := by simp at hf; omega
      simp only [scrubPats, if_neg hc]
      rw [ih r hfr hr]

theorem aux_lineScrubMatch_none (l : List Char) (hb : '[' ∉ l) :
    lineScrubMatch l = none := by
  unfold lineScrubMatch
  cases hd : l.dropWhile isJsWs with
  | nil => rfl
  | cons c r =>
    have hc : c ≠ '[' := by
      intro h
      apply hb
      have hmem : c ∈ l.dropWhile isJsWs := hd ▸ List.mem_cons_self c r
      exact h ▸ (List.dropWhile_suffix isJsWs).mem hmem
    simp [if_neg hc]

theorem aux_scrubLines_id (fuel : Nat) (b : Bool) (l : List Char)
    (hf : l.length ≤ fuel) (hb : '[' ∉ l) : scrubLines fuel b l = l := by
  induction fuel generalizing b l with
  | zero => cases l with
    | nil => rfl
    | cons c r => simp at hf
  | succ f ih =>
    cases l with
    | nil => rfl
    | cons c r =>
      have hr : '[' ∉ r := fun h => hb (List.mem_cons_of_mem c h)
      have hfr : r.length ≤ f := by simp at hf; omega
      cases b with
      | false =>
        show c :: scrubLines f (isLineTerm c) r = c :: r
        rw [ih (isLineTerm c) r hfr hr]
      | true =>
        show (match lineScrubMatch (c :: r) with
          | some rest =>
            let consumed := (c :: r).take ((c :: r).length - rest.length)
            scrubLines f
              (match consumed.getLast? with
               | some x => isLineTerm x
               | none => true) rest
          | none => c :: scrubLines f (isLineTerm c) r) = c :: r
        rw [aux_lineScrubMatch_none (c :: r) hb]
        show c :: scrubLines f (isLineTerm c) r = c :: r
        rw [ih (isLineTerm c) r hfr hr]

theorem aux_scrubL_fix (x : List Char) (hb : '[' ∉ scrubL x) :
    scrubL (scrubL x) = scrubL x := by
  set y := scrubL x with hy
  have hz : y = trimChars (scrubLines (scrubPats x.length x).length true
      (scrubPats x.length x)) := hy
  show trimChars (scrubLines (scrubPats y.length y).length true (scrubPats y.length y)) = y
  rw [aux_scrubPats_id y.length y (le_refl _) hb]
  rw [aux_scrubLines_id y.length true y (le_refl _) hb]
  rw [hz, aux_trim_trim]

theorem aux_getLastNonEmpty_ne (msgs : List Message)
    (h : ∃ m ∈ msgs, trimStr (toTextG m) ≠ "") :
    getLastNonEmptyTextG msgs ≠ "" := by
  induction msgs with
  | nil => simp at h
  | cons m r ih =>
    obtain ⟨m0, hm0, hne⟩ := h
    show (if getLastNonEmptyTextG r ≠ "" then getLastNonEmptyTextG r
      else if trimStr (toTextG m) ≠ "" then trimStr (toTextG m) else "") ≠ ""
    by_cases hrest : getLastNonEmptyTextG r ≠ ""
    · simp [hrest]
    · rcases List.mem_cons.mp hm0 with h1 | h2
      · subst h1
        simp [hrest, hne]
      · exact absurd (ih ⟨m0, h2, hne⟩) hrest

theorem aux_toTextG_trimmed (m : Message) : trimStr (toTextG m) = toTextG m := by
  cases hc : m.content with
  | jnull => simp [toTextG, hc]; rfl
  | jstr s => simp only [toTextG, hc, scrubMeta, scrubL, trimStr]
              exact congrArg String.mk (aux_trim_trim _)
  | jarr ps => simp only [toTextG, hc, scrubMeta, scrubL, trimStr]
               exact congrArg String.mk (aux_trim_trim _)
  | jobj t c => simp only [toTextG, hc, scrubMeta, scrubL, trimStr]
                exact congrArg String.mk (aux_trim_trim _)

theorem aux_joinSep_ne_nil (sep : String) (L : List String) (h : joinSep sep L ≠ "") :
    L ≠ [] := by
  intro hL
  subst hL
  exact h rfl

theorem aux_filter_ne_exists (p : String → Bool) (L : List String)
    (h : L.filter p ≠ []) : ∃ s ∈ L, p s = true := by
  by_contra hno
  push_neg at hno
  exact h (List.filter_eq_nil_iff.mpr (by simpa using hno))

theorem aux_systemText_forces_lastAny (msgs : List Message)
    (h : systemTextG msgs ≠ "") : getLastNonEmptyTextG msgs ≠ "" := by
  unfold systemTextG at h
  have hfil := aux_joinSep_ne_nil _ _ h
  have : ∃ s ∈ (msgs.filter (fun m => jsLower m.role = "system")).map toTextG,
      (fun s => decide (s ≠ "")) s = true := by
    apply aux_filter_ne_exists
    intro hnil
    rw [show ((msgs.filter (fun m => jsLower m.role = "system")).map toTextG).filter
      (fun s => decide (s ≠ "")) = ((msgs.filter (fun m => jsLower m.role = "system")).map
      toTextG).filter (fun s => s ≠ "") from rfl] at hnil
    exact hfil hnil
  obtain ⟨s, hs, hsne⟩ := this
  obtain ⟨m, hm, hms⟩ := List.mem_map.mp hs
  have hmm : m ∈ msgs := (List.mem_filter.mp hm).1
  apply aux_getLastNonEmpty_ne
  refine ⟨m, hmm, ?_⟩
  rw [aux_toTextG_trimmed, hms]
  simpa using hsne

theorem aux_chopF_flatten (fuel : Nat) (l : List Char) (hf : l.length ≤ fuel) :
    (chopF fuel l).flatten = l := by
  induction fuel generalizing l with
  | zero => cases l with
    | nil => rfl
    | cons c r => simp at hf
  | succ f ih =>
    cases l with
    | nil => rfl
    | cons c r =>
      show (List.take 120 (c :: r) :: chopF f (List.drop 120 (c :: r))).flatten = c :: r
      rw [List.flatten_cons, ih _ (by simp [List.length_drop] at hf ⊢; omega)]
      exact List.take_append_drop 120 (c :: r)

theorem aux_chopF_le (fuel : Nat) (l ch : List Char) (h : ch ∈ chopF fuel l) :
    ch.length ≤ 120 := by
  induction fuel generalizing l with
  | zero => simp [chopF] at h
  | succ f ih =>
    cases l with
    | nil => simp [chopF] at h
    | cons c r =>
      rcases List.mem_cons.mp h with h1 | h2
      · subst h1; exact List.length_take_le 120 (c :: r)
      · exact ih _ h2

theorem aux_runsF_flatten (fuel : Nat) (l : List Char) (hf : l.length ≤ fuel) :
    (runsF fuel l).flatten = l.filter (fun c => !isLineTerm c) := by
  induction fuel generalizing l with
  | zero => cases l with
    | nil => rfl
    | cons c r => simp at hf
  | succ f ih =>
    cases l with
    | nil => rfl
    | cons c r =>
      by_cases hlt : isLineTerm c
      · rw [show runsF (f + 1) (c :: r) = runsF f r from by simp [runsF, hlt]]
        rw [ih r (by simp at hf; omega)]
        rw [List.filter_cons_of_neg (by simp [hlt])]
      · rw [show runsF (f + 1) (c :: r) = (c :: r).takeWhile (fun x => !isLineTerm x) ::
            runsF f ((c :: r).dropWhile (fun x => !isLineTerm x)) from by simp [runsF, hlt]]
        rw [List.flatten_cons]
        have hlen : ((c :: r).dropWhile (fun x => !isLineTerm x)).length ≤ f := by
          have hdw : ((c :: r).dropWhile (fun x => !isLineTerm x)).length ≤ r.length := by
            have heq : (c :: r).dropWhile (fun x => !isLineTerm x) =
                r.dropWhile (fun x => !isLineTerm x) := by
              simp [List.dropWhile_cons, hlt]
            rw [heq]
            exact (List.dropWhile_sublist _).length_le
          simp at hf; omega
        rw [ih _ hlen]
        conv_rhs => rw [← List.takeWhile_append_dropWhile (fun x => !isLineTerm x) (c :: r)]
        rw [List.filter_append]
        congr 1
        exact (List.filter_eq_self.mpr (fun a ha =>
          @List.mem_takeWhile_imp _ (fun x => !isLineTerm x) (c :: r) a ha)).symm

theorem aux_getLast_mem (L : List String) (a : String) (h : L.getLast? = some a) :
    a ∈ L := by
  induction L with
  | nil => simp at h
  | cons x r ih =>
    cases r with
    | nil => simp at h; simp [h]
    | cons y t =>
      rw [List.getLast?_cons_cons] at h
      exact List.mem_cons_of_mem x (ih h)

theorem aux_strConcat_mk (ps : List (List Char)) :
    strConcat (ps.map String.mk) = String.mk ps.flatten := by
  induction ps with
  | nil => rfl
  | cons x r ih =>
    show String.mk x ++ strConcat (r.map String.mk) = String.mk (x :: r).flatten
    rw [ih]
    rfl

theorem aux_map_chop_flatten (rs : List (List Char)) :
    ((rs.map (fun run => chopF run.length run)).flatten).flatten = rs.flatten := by
  induction rs with
  | nil => rfl
  | cons x r ih =>
    show ((chopF x.length x :: r.map (fun run => chopF run.length run)).flatten).flatten =
      (x :: r).flatten
    rw [List.flatten_cons, List.flatten_append, ih, aux_chopF_flatten _ _ (le_refl _),
      List.flatten_cons]

theorem aux_matchChunks_concat (s : String) :
    strConcat (matchChunks s) = removeLineTerms s := by
  unfold matchChunks removeLineTerms
  set rs := runsF s.data.length s.data with hrs
  set ps := (rs.map (fun run => chopF run.length run)).flatten with hps
  have hflat : ps.flatten = s.data.filter (fun c => !isLineTerm c) := by
    rw [hps, aux_map_chop_flatten, hrs, aux_runsF_flatten _ _ (le_refl _)]
  by_cases hempty : ps.isEmpty
  · have hnil : ps = [] := by simpa [List.isEmpty_iff] using hempty
    have : s.data.filter (fun c => !isLineTerm c) = [] := by rw [← hflat, hnil]; rfl
    rw [if_pos hempty, this]
    rfl
  · rw [if_neg hempty, aux_strConcat_mk, hflat]

theorem aux_matchChunks_le (s : String) (c : String) (h : c ∈ matchChunks s) :
    c.length ≤ 120 := by
  unfold matchChunks at h
  by_cases hempty : ((runsF s.data.length s.data).map
      (fun run => chopF run.length run)).flatten.isEmpty
  · rw [if_pos hempty] at h
    simp at h
    subst h
    decide
  · rw [if_neg hempty] at h
    obtain ⟨ch, hch, hc⟩ := List.mem_map.mp h
    obtain ⟨grp, hgrp, hmem⟩ := List.mem_flatten.mp hch
    obtain ⟨run, _, hrun⟩ := List.mem_map.mp hgrp
    subst hc
    show (String.mk ch).data.length ≤ 120
    exact aux_chopF_le _ _ _ (hrun ▸ hmem)

theorem aux_prefix_head_mem (c : Char) (cs l : List Char)
    (h : (c :: cs).isPrefixOf l = true) : c ∈ l := by
  cases l with
  | nil => simp [List.isPrefixOf] at h
  | cons d r =>
    have : c = d := by
      simp [List.isPrefixOf] at h
      exact h.1
    simp [this]

theorem aux_containsSub_mem (c : Char) (cs l : List Char)
    (h : containsSub (c :: cs) l = true) : c ∈ l := by
  induction l with
  | nil => simp [containsSub] at h
  | cons d r ih =>
    simp only [containsSub, Bool.or_eq_true] at h
    rcases h with h1 | h2
    · exact aux_prefix_head_mem c cs (d :: r) h1
    · exact List.mem_cons_of_mem d (ih h2)

theorem aux_not_containsSub (c : Char) (cs l : List Char)
    (hall : ∀ x ∈ l, isMathClassChar x = true) (hc : isMathClassChar c = false) :
    containsSub (c :: cs) l = false := by
  by_contra h
  have hmem := aux_containsSub_mem c cs l (by simpa using h)
  rw [hall c hmem] at hc
  simp at hc

theorem aux_jixu_mem (l : List Char) (h : hasJixuBoundary l = true) : '继' ∈ l := by
  induction l with
  | nil => simp [hasJixuBoundary] at h
  | cons c r ih =>
    simp only [hasJixuBoundary, Bool.or_eq_true] at h
    rcases h with h1 | h2
    · have hc : c = '继' := by
        have h3 := (Bool.and_eq_true _ _).mp h1
        simpa using h3.1
      simp [hc]
    · exact List.mem_cons_of_mem c (ih h2)

theorem aux_fragRules_math_count (cfg : GatewayConfig) (lang t : String)
    (hstrict : cfg.strictLatestOnly = false) (ht : t ≠ "")
    (hmath : isMathIntentText t = true) (hm : cfg.intentRuleMath = true)
    (hr : mathRuleText cfg lang ≠ "") :
    1 ≤ List.count (mathRuleText cfg lang) (fragRules cfg lang t) := by
  unfold fragRules
  rw [if_pos ⟨hstrict, ht⟩, if_pos ⟨hm, hmath⟩, if_pos hr, List.count_append]
  have : List.count (mathRuleText cfg lang) [mathRuleText cfg lang] = 1 := by
    simp
  omega

theorem aux_fragRules_story_count (cfg : GatewayConfig) (lang t : String)
    (hstrict : cfg.strictLatestOnly = false) (ht : t ≠ "")
    (hstory : isStoryIntentText t = true) (hs : cfg.intentRuleStory = true)
    (hr : storyRuleText cfg lang ≠ "") :
    1 ≤ List.count (storyRuleText cfg lang) (fragRules cfg lang t) := by
  unfold fragRules
  rw [if_pos ⟨hstrict, ht⟩, List.count_append]
  have h2 : List.count (storyRuleText cfg lang)
      (if cfg.intentRuleStory = true ∧ isStoryIntentText t = true then
        (if storyRuleText cfg lang ≠ "" then [storyRuleText cfg lang] else []) else []) = 1 := by
    rw [if_pos ⟨hs, hstory⟩, if_pos hr]
    simp
  omega

/-- C1: the claim states that the request
`{messages:[{role:"user", content:"2+2=?"}], source:"demo"}` (model
defaulting to `stub`) is answered by the math short-circuit with assistant
content `"4"`.  False: with no `chat_completion_source` field (and even
with one equal to `demo`) the request is routed to the demo fallback
branch, which contains no math short-circuit and echoes
`（演示回复）你说：2+2=?`, not `"4"`. -/
theorem c1_demo_math_counterexample :
    branchOf "" "stub" = Branch.demo ∧
    demoReply [Message.mk "user" (.jstr "2+2=?")] = "（演示回复）你说：2+2=?" ∧
    demoReply [Message.mk "user" (.jstr "2+2=?")] ≠ "4" :=
  ⟨by decide, by decide, by decide⟩

/-- C1 (amended): the request `{messages:[{role:"user", content:"2+2=?"}]}`
with declared source `demo` (or with no recognized source at all) routes to
the demo fallback branch, which performs zero upstream calls (`demoReply`
consumes no transport attempts by construction) and answers the canned echo
`（演示回复）你说：2+2=?`; the math short-circuit exists only inside the
Gemini and OpenAI-compatible branches, so the reply is the echo, not `"4"`. -/
theorem c1_demo_math_amended :
    branchOf "" "stub" = Branch.demo ∧
    branchOf "demo" "stub" = Branch.demo ∧
    demoReply [Message.mk "user" (.jstr "2+2=?")] = "（演示回复）你说：2+2=?" :=
  ⟨by decide, by decide, by decide⟩

/-- C2: the claim states that a networked-branch request with no resolvable
credential is always answered with a successful canned demo echo, never an
error.  False for the OpenAI-compatible branch: with source `openai` and no
credential anywhere, the base URL still resolves to the OpenAI default, so
the branch proceeds to an unauthenticated upstream call instead of the demo
echo, and an upstream failure (e.g. 401) is surfaced as a 502 error result. -/
theorem c2_no_credential_counterexample :
    ocRoute OCSource.openai "guest" "" "" "" "" "" "" "" [] =
      NetRoute.upstream "https://api.openai.com" "" ∧
    ocUpstreamCall (.resp 401 "Unauthorized") =
      .error (GatewayError.mk 502 401 "Unauthorized") :=
  ⟨by decide, rfl⟩

/-- C2 (amended): in the Gemini branch, whenever no API key resolves from
the user scope, the environment default or the guest scope, the endpoint
answers the canned echo with HTTP success.  In the OpenAI-compatible branch
the canned echo is produced exactly when no base URL resolves; a missing
credential with a resolvable base (always the case for the openai and
openrouter sources, whose defaults are fixed) leads to an upstream call
instead, whose failure surfaces as an error. -/
theorem c2_no_credential_amended :
    (∀ (msgs : List Message) (userVal envVal guestVal : String),
      geminiKeyResolve userVal envVal guestVal = "" →
      geminiRoute msgs userVal envVal guestVal = .demoEcho (geminiNoKeyReply msgs)) ∧
    (∀ (src : OCSource) (uid userVal guestVal envVal bc br eb pw : String)
      (msgs : List Message),
      (∃ r, ocRoute src uid userVal guestVal envVal bc br eb pw msgs = .demoEcho r) ↔
        ocBaseResolve src bc br eb = "") := by
  constructor
  · intro msgs u e g h
    unfold geminiRoute
    rw [h]
    rfl
  · intro src uid u g e bc br eb pw msgs
    unfold ocRoute
    by_cases hb : ocBaseResolve src bc br eb = "" <;> simp [hb]

/-- Witness for C2 (amended) at concrete inputs: an empty key resolution
yields the Gemini demo echo, and for the custom source with nothing
configured the base resolves empty, so the demo echo is produced. -/
theorem c2_no_credential_witness :
    geminiRoute [] "" "" "" = .demoEcho (geminiNoKeyReply []) ∧
    ((∃ r, ocRoute OCSource.custom "guest" "" "" "" "" "" "" "" [] = .demoEcho r) ↔
      ocBaseResolve OCSource.custom "" "" "" = "") :=
  ⟨c2_no_credential_amended.1 [] "" "" "" (by decide),
   c2_no_credential_amended.2 OCSource.custom "guest" "" "" "" "" "" "" "" []⟩

/-- C3: the claim states that both networked adapters retry 429/5xx/
connect failures.  False: the OpenAI-compatible branch issues one bare
`fetch` (its call consumes a single attempt outcome by construction) and
surfaces a retryable 503 immediately as a terminal 502, while the Gemini
adapter on the same outcome sequence retries once (backoff 400ms) and
succeeds. -/
theorem c3_retry_scope_counterexample :
    ocUpstreamCall (.resp 503 "unavailable") =
      .error (GatewayError.mk 502 503 "unavailable") ∧
    fetchWithRetries 2 400
      (consOracle (.resp 503 "unavailable") (fun _ => .resp 200 "ok")) =
      (FetchResult.mk true 200 "ok", [400]) :=
  ⟨rfl, by decide⟩

theorem aux_fetchLoop_persistent (d : Nat) (b : String) :
    ∀ (k : Nat) (lt le : String) (ls i : Nat),
      fetchLoop d (List.replicate (k + 1) (Attempt.resp 500 b)) i lt ls le =
      (FetchResult.mk false 500 b, (List.range k).map (fun j => d * 2 ^ (i + j))) := by
  intro k
  induction k with
  | zero =>
    intro lt le ls i
    show fetchLoop d [Attempt.resp 500 b] i lt ls le = _
    simp [fetchLoop, okStatus]
  | succ k ih =>
    intro lt le ls i
    rw [List.replicate_succ]
    show (if okStatus 500 then (FetchResult.mk true 500 b, ([] : List Nat))
      else if List.replicate (k + 1) (Attempt.resp 500 b) ≠ [] ∧ retryableStatus 500 then
        let p := fetchLoop d (List.replicate (k + 1) (Attempt.resp 500 b)) (i + 1) b 500 le
        (p.1, d * 2 ^ i :: p.2)
      else (FetchResult.mk false 500 b, [])) =
      (FetchResult.mk false 500 b, (List.range (k + 1)).map (fun j => d * 2 ^ (i + j)))
    rw [if_neg (by decide), if_pos ⟨by simp, by decide⟩]
    show (let p := fetchLoop d (List.replicate (k + 1) (Attempt.resp 500 b)) (i + 1) b 500 le
      (p.1, d * 2 ^ i :: p.2)) =
      (FetchResult.mk false 500 b, (List.range (k + 1)).map (fun j => d * 2 ^ (i + j)))
    rw [ih b le 500 (i + 1)]
    rw [List.range_succ_eq_map, List.map_cons, List.map_map]
    refine congrArg _ ?_
    refine congrArg₂ _ (by simp) ?_
    apply List.map_congr_left
    intro j _
    show d * 2 ^ (i + 1 + j) = d * 2 ^ (i + Nat.succ j)
    have he : i + 1 + j = i + Nat.succ j := by omega
    rw [he]

/-- C3 (amended): only the Gemini-style adapter retries.  Its
`fetchWithRetries` (i) returns any non-2xx, non-retryable first response
immediately as a terminal failure with no backoff, (ii) on a persistent 500
exhausts exactly the configured number of additional attempts with doubling
backoff delays `delay * 2^i` and then surfaces the terminal failure, and
(iii) on a retryable 503 followed by a 200 succeeds after a single
base-delay backoff.  The OpenAI-compatible adapter performs exactly one
attempt (its call consumes a single outcome by construction): a 2xx body is
passed through, any other status is an immediate 502 error with no retry. -/
theorem c3_retry_policy_amended :
    (∀ (n d s : Nat) (t : String) (f : Nat → Attempt), ¬ okStatus s →
      ¬ retryableStatus s →
      fetchWithRetries n d (consOracle (.resp s t) f) = (FetchResult.mk false s t, [])) ∧
    (∀ (n d : Nat) (b : String),
      fetchWithRetries n d (fun _ => .resp 500 b) =
        (FetchResult.mk false 500 b, (List.range n).map (fun i => d * 2 ^ i))) ∧
    (∀ (n d : Nat) (t u : String),
      fetchWithRetries (n + 1) d (consOracle (.resp 503 u) (fun _ => .resp 200 t)) =
        (FetchResult.mk true 200 t, [d])) ∧
    (∀ (s : Nat) (t : String), ocUpstreamCall (.resp s t) =
      if okStatus s then .ok t else .error (GatewayError.mk 502 s (strTake 500 t))) := by
  refine ⟨?_, ?_, ?_, ?_⟩
  · intro n d s t f h1 h2
    unfold fetchWithRetries
    rw [List.range_succ_eq_map, List.map_cons, List.map_map]
    show (if okStatus s then (FetchResult.mk true s t, ([] : List Nat))
      else if (List.range n).map (fun i => consOracle (.resp s t) f (Nat.succ i)) ≠ [] ∧
          retryableStatus s then
        let p := fetchLoop d ((List.range n).map
          (fun i => consOracle (.resp s t) f (Nat.succ i))) 1 t s ""
        (p.1, d * 2 ^ 0 :: p.2)
      else (FetchResult.mk false s t, [])) = (FetchResult.mk false s t, [])
    rw [if_neg h1, if_neg (by intro hand; exact h2 hand.2)]
  · intro n d b
    unfold fetchWithRetries
    have hrep : (List.range (n + 1)).map (fun _ => Attempt.resp 500 b) =
        List.replicate (n + 1) (Attempt.resp 500 b) := by
      simp [List.map_const']
    rw [hrep, aux_fetchLoop_persistent d b n "" "" 0 0]
    simp
  · intro n d t u
    unfold fetchWithRetries
    rw [List.range_succ_eq_map, List.map_cons, List.map_map]
    have hmap : (List.range (n + 1)).map
        (fun i => consOracle (.resp 503 u) (fun _ => Attempt.resp 200 t) (Nat.succ i)) =
        List.replicate (n + 1) (Attempt.resp 200 t) := by
      simp [List.map_const', consOracle]
    show (if okStatus 503 then (FetchResult.mk true 503 u, ([] : List Nat))
      else if (List.range (n + 1)).map
          (fun i => consOracle (.resp 503 u) (fun _ => Attempt.resp 200 t) (Nat.succ i)) ≠ [] ∧
          retryableStatus 503 then
        let p := fetchLoop d ((List.range (n + 1)).map
          (fun i => consOracle (.resp 503 u) (fun _ => Attempt.resp 200 t) (Nat.succ i)))
          1 u 503 ""
        (p.1, d * 2 ^ 0 :: p.2)
      else (FetchResult.mk false 503 u, [])) = (FetchResult.mk true 200 t, [d])
    rw [if_neg (by decide), if_pos ⟨by rw [hmap]; simp, by decide⟩, hmap]
    rw [List.replicate_succ]
    show (let p := (if okStatus 200 then (FetchResult.mk true 200 t, ([] : List Nat))
        else if List.replicate n (Attempt.resp 200 t) ≠ [] ∧ retryableStatus 200 then
          let q := fetchLoop d (List.replicate n (Attempt.resp 200 t)) 2 t 200 ""
          (q.1, d * 2 ^ 1 :: q.2)
        else (FetchResult.mk false 200 t, []))
      (p.1, d * 2 ^ 0 :: p.2)) = (FetchResult.mk true 200 t, [d])
    rw [if_pos (by decide)]
    simp
  · intro s t
    rfl

/-- Witness for C3 (amended) at concrete inputs: a 404 first response with
retry budget 2 is terminal at once with no backoff delays, and a 2xx
OpenAI-compatible response is passed through. -/
theorem c3_retry_policy_witness :
    fetchWithRetries 2 400 (consOracle (.resp 404 "nf") (fun _ => .resp 200 "x")) =
      (FetchResult.mk false 404 "nf", []) ∧
    ocUpstreamCall (.resp 200 "body") =
      (if okStatus 200 then .ok "body"
       else .error (GatewayError.mk 502 200 (strTake 500 "body"))) :=
  ⟨c3_retry_policy_amended.1 2 400 404 "nf" (fun _ => .resp 200 "x")
      (by decide) (by decide),
   c3_retry_policy_amended.2.2.2 200 "body"⟩

set_option maxRecDepth 8192 in
/-- C4: the claim states the system-instruction fragments are concatenated
in the precedence (system, language, card, world, enforcer, user-priority,
intent-rule, intent-anchor), each at most once.  False: for the default
configuration, English UI and the single user message `1+2=?` the Gemini
branch assembles `[math-rule, math-rule, user-priority]` — the math
intent-rule text appears twice (once from the last-user-text check and once
from the anchor check) and precedes the user-priority directive, against
the claimed order. -/
theorem c4_fragment_order_counterexample :
    sysListGemini defaultConfig "en" "" "" "" ""
        [] [] (lastUserTextG [Message.mk "user" (.jstr "1+2=?")] "")
        (anchorG [Message.mk "user" (.jstr "1+2=?")] "") =
      [defaultConfig.intentRuleMathTextEN, defaultConfig.intentRuleMathTextEN,
        defaultConfig.userPriorityTextEN] ∧
    List.count defaultConfig.intentRuleMathTextEN
      (sysListGemini defaultConfig "en" "" "" "" ""
        [] [] (lastUserTextG [Message.mk "user" (.jstr "1+2=?")] "")
        (anchorG [Message.mk "user" (.jstr "1+2=?")] "")) = 2 :=
  ⟨by decide, by decide⟩

/-- C4 (amended): the fragments enabled and non-empty are concatenated in
this fixed order instead — Gemini branch: (1) verbatim system text,
(2) language directive, (3) intent rules fired on the last user text,
(4) intent rules fired on the anchor, (5) anchor-based intent-anchor
directive, (6) character-card brief, (7) world-info brief, (8) roleplay
enforcer, (9) user-priority directive, (10) a second world-info brief,
(11) last-user-based intent-anchor directive; OpenAI-compatible branch:
system text, language, card, enforcer, user-priority, intent rules (last
user text then anchor), last-user intent-anchor directive, with no
world-info fragment.  Intent-rule, world-info and intent-anchor fragments
can therefore each appear twice. -/
theorem c4_fragment_order_amended (cfg : GatewayConfig)
    (lang sysText charName userName uid lu ab : String) (chars : List CharCard)
    (items : List WItem) :
    sysListGemini cfg lang sysText charName userName uid chars items lu ab =
      fragSys cfg sysText ++ fragLang cfg lang ++ fragRules cfg lang lu ++
      fragRules cfg lang ab ++
      fragAnchorDir cfg lang ab true (isMathIntentText lu || isMathIntentText ab) ++
      fragCard cfg lang charName uid chars ++ fragWorld cfg lang uid items true ++
      fragEnforcer cfg lang charName userName ++ fragPrio cfg lang ++
      fragWorld cfg lang uid items false ++
      fragAnchorDir cfg lang lu true (isMathIntentText lu || isMathIntentText ab) ∧
    sysListCompat cfg lang sysText charName userName uid chars lu ab =
      fragSys cfg sysText ++ fragLang cfg lang ++ fragCard cfg lang charName uid chars ++
      fragEnforcer cfg lang charName userName ++ fragPrio cfg lang ++
      fragRules cfg lang lu ++ fragRules cfg lang ab ++
      fragAnchorDir cfg lang lu false false := by
  constructor
  · simp [sysListGemini, List.append_assoc]
  · simp [sysListCompat, List.append_assoc]

/-- C5: the claim states the anchor falls back in the order (last non-empty
user utterance; last non-empty utterance of any role; hint header).  False:
for `[user "hello", assistant "hi", user ""]` with no header the code takes
the text of the *last user-role message* (empty here) and then falls
through to the last non-empty text of any role, yielding `"hi"`, while the
claimed rule would return the earlier non-empty user utterance `"hello"`. -/
theorem c5_anchor_order_counterexample :
    anchorG [Message.mk "user" (.jstr "hello"), Message.mk "assistant" (.jstr "hi"),
      Message.mk "user" (.jstr "")] "" = "hi" ∧
    specAnchorClaimed [Message.mk "user" (.jstr "hello"),
      Message.mk "assistant" (.jstr "hi"), Message.mk "user" (.jstr "")] "" = "hello" ∧
    ("hi" : String) ≠ "hello" :=
  ⟨by decide, by decide, by decide⟩

/-- C5 (amended): the anchor is the text of the last user-role message
(even when an earlier user message is non-empty); if that text is empty,
the out-of-band hint header; if still empty, the last non-empty utterance
of any role.  The further system-text extraction tier in the source is
unreachable, because a non-empty system text forces a non-empty anchor. -/
theorem c5_anchor_order_amended :
    (∀ (msgs : List Message) (hdr : String),
      anchorG msgs hdr = specAnchorAmended msgs hdr) ∧
    (∀ (msgs : List Message) (hdr : String), systemTextG msgs ≠ "" →
      anchorG msgs hdr ≠ "") := by
  constructor
  · intro msgs hdr
    unfold anchorG specAnchorAmended lastUserTextG
    by_cases h1 : (match lastUserMsg msgs with
      | some m => toTextG m
      | none => "") = ""
    · rw [h1]
      by_cases h2 : hdr = "" <;> simp [h2]
    · simp [h1]
  · intro msgs hdr hsys
    have hany := aux_systemText_forces_lastAny msgs hsys
    unfold anchorG
    by_cases h : lastUserTextG msgs hdr = "" <;> simp [h, hany]

/-- Witness for C5 (amended) at concrete inputs: the refinement equality at
a one-message list, and a non-empty system text yielding a non-empty
anchor. -/
theorem c5_anchor_order_witness :
    anchorG [Message.mk "user" (.jstr "hey")] "h" =
      specAnchorAmended [Message.mk "user" (.jstr "hey")] "h" ∧
    anchorG [Message.mk "system" (.jstr "sys")] "" ≠ "" :=
  ⟨c5_anchor_order_amended.1 [Message.mk "user" (.jstr "hey")] "h",
   c5_anchor_order_amended.2 [Message.mk "system" (.jstr "sys")] "" (by decide)⟩

/-- C6: the claim states CanonicalText derivation is idempotent.  False:
scrubbing `x[Start a new Ch[Example Chat]at]` removes the inner
`[Example Chat]`, which splices together a fresh `[Start a new Chat]` that
the single replacement pass does not revisit; a second flattening removes
it, so `flatten(flatten(x)) ≠ flatten(x)`. -/
theorem c6_flatten_idem_counterexample :
    scrubMeta "x[Start a new Ch[Example Chat]at]" = "x[Start a new Chat]" ∧
    scrubMeta (scrubMeta "x[Start a new Ch[Example Chat]at]") = "x" ∧
    scrubMeta (scrubMeta "x[Start a new Ch[Example Chat]at]") ≠
      scrubMeta "x[Start a new Ch[Example Chat]at]" :=
  ⟨by decide, by decide, by decide⟩

/-- C6 (amended): CanonicalText derivation is idempotent on every input
whose flattening contains no `[` character (in particular whenever no
bracketed meta marker or fragment of one survives the first pass);
re-flattening such text is a no-op. -/
theorem c6_flatten_idem_amended (s : String)
    (hb : '[' ∉ (scrubMeta s).data) :
    scrubMeta (scrubMeta s) = scrubMeta s :=
  congrArg String.mk (aux_scrubL_fix s.data hb)

/-- Witness for C6 (amended): a text whose flattening drops its meta marker
and keeps no bracket is a fixpoint of a second flattening. -/
theorem c6_flatten_idem_witness :
    scrubMeta (scrubMeta "  hi [Example Chat] there ") =
      scrubMeta "  hi [Example Chat] there " :=
  c6_flatten_idem_amended "  hi [Example Chat] there " (by decide)

/-- C7: the claim states an all-system-role Gemini request produces a
payload whose contents hold exactly one synthesized user turn.  False for
the payload actually sent: under the default configuration (hard intent
append on, no math intent) the conversion synthesizes one user turn from
the last non-empty text and the hard-append step then adds a second
synthetic user turn restating the anchor, so the final contents hold two
user turns. -/
theorem c7_system_only_counterexample :
    geminiContentsFinal defaultConfig [Message.mk "system" (.jstr "hi")] "" "en" =
      [GTurn.mk "user" "hi", GTurn.mk "user" "hi (please respond to this directly)"] ∧
    ((geminiContentsFinal defaultConfig [Message.mk "system" (.jstr "hi")] "" "en").filter
      (fun t => t.role = "user")).length ≠ 1 :=
  ⟨by decide, by decide⟩

/-- C7 (amended): for a Gemini-branch request whose messages are all
system-role and at least one of which has non-empty scrubbed text, the
*conversion stage* yields exactly one synthesized user turn (carrying the
last non-empty text); the final payload may gain one further synthetic user
turn from the hard-append step, and with every text empty the conversion
yields no turn at all. -/
theorem c7_system_only_amended (cfg : GatewayConfig) (msgs : List Message)
    (hall : ∀ m ∈ msgs, jsLower m.role = "system")
    (hne : ∃ m ∈ msgs, trimStr (toTextG m) ≠ "") :
    ∃ t, t ≠ "" ∧ geminiConvert cfg msgs = [GTurn.mk "user" t] := by
  have hnonSys : msgs.filter (fun m => jsLower m.role ≠ "system") = [] := by
    rw [List.filter_eq_nil_iff]
    intro m hm
    simp [hall m hm]
  have hATne : (msgs.map (fun m => trimStr (toTextG m))).filter (fun s => s ≠ "") ≠ [] := by
    obtain ⟨m, hm, hmne⟩ := hne
    intro hnil
    have hmem : trimStr (toTextG m) ∈
        (msgs.map (fun m => trimStr (toTextG m))).filter (fun s => s ≠ "") :=
      List.mem_filter.mpr ⟨List.mem_map_of_mem _ hm, by simpa using hmne⟩
    rw [hnil] at hmem
    simp at hmem
  obtain ⟨t, ht⟩ := Option.isSome_iff_exists.mp (List.getLast?_isSome.mpr hATne)
  refine ⟨t, ?_, ?_⟩
  · have hmem := aux_getLast_mem _ t ht
    have := (List.mem_filter.mp hmem).2
    simpa using this
  · unfold geminiConvert
    rw [hnonSys]
    simp only [List.filter_nil, List.length_nil, List.drop_nil, List.map_nil,
      List.isEmpty_nil, if_pos]
    rw [ht]

/-- Witness for C7 (amended): the single system message `hi` converts to
exactly one synthesized user turn. -/
theorem c7_system_only_witness :
    ∃ t, t ≠ "" ∧ geminiConvert defaultConfig [Message.mk "system" (.jstr "hi")] =
      [GTurn.mk "user" t] :=
  c7_system_only_amended defaultConfig [Message.mk "system" (.jstr "hi")]
    (by decide) (by decide)

/-- C8: the claim states the streamed chunk texts concatenate to the
aggregated reply exactly.  False: the re-chunker `/.{1,120}/g` cannot match
line terminators, so a reply containing a newline (as produced when several
candidates are joined with `\n`) loses it — `a\nb` streams as the chunks
`a`, `b` whose concatenation is `ab`. -/
theorem c8_stream_chunks_counterexample :
    matchChunks "a\nb" = ["a", "b"] ∧
    strConcat (matchChunks "a\nb") = "ab" ∧
    strConcat (matchChunks "a\nb") ≠ "a\nb" :=
  ⟨by decide, by decide, by decide⟩

/-- C8 (amended): every emitted chunk holds at most 120 characters, the
chunk texts concatenated in emission order equal the aggregated reply with
its line-terminator characters removed (hence equal the reply exactly iff
it contains none), and the event sequence is the chunk events followed by
the final `[DONE]` marker. -/
theorem c8_stream_chunks_amended (reply : String) :
    (∀ c ∈ matchChunks reply, c.length ≤ 120) ∧
    strConcat (matchChunks reply) = removeLineTerms reply ∧
    geminiStream reply = (matchChunks reply).map StreamEvent.chunk ++ [StreamEvent.done] :=
  ⟨fun c hc => aux_matchChunks_le reply c hc, aux_matchChunks_concat reply, rfl⟩

/-- Witness for C8 (amended) at a concrete reply. -/
theorem c8_stream_chunks_witness :
    ("abc" : String).length ≤ 120 ∧
    strConcat (matchChunks "abc") = removeLineTerms "abc" :=
  ⟨(c8_stream_chunks_amended "abc").1 "abc" (by decide),
   (c8_stream_chunks_amended "abc").2.1⟩

/-- C9: the claim states no text satisfies both intent classifiers.  False:
`下一步 123` contains the story keyword `下一步` and a three-character
arithmetic-class run, so both classifiers return true. -/
theorem c9_intent_overlap_counterexample :
    isMathIntentText "下一步 123" = true ∧ isStoryIntentText "下一步 123" = true :=
  ⟨by decide, by decide⟩

/-- C9 (amended): the two classifiers are not mutually exclusive in
general, but on any text consisting solely of arithmetic-class characters
(digits, whitespace, `+-*/()=`) of length at least three, the math
classifier fires and the story classifier cannot (every story pattern
needs a CJK character outside that class). -/
theorem c9_intent_overlap_amended (s : String)
    (hall : ∀ c ∈ s.data, isMathClassChar c = true) (hlen : 3 ≤ s.data.length) :
    isMathIntentText s = true ∧ isStoryIntentText s = false := by
  constructor
  · rcases hd : s.data with _ | ⟨a, _ | ⟨b, _ | ⟨c, r⟩⟩⟩ <;> rw [hd] at hlen <;>
      simp at hlen
    have ha := hall a (hd ▸ List.mem_cons_self _ _)
    have hb := hall b (hd ▸ List.mem_cons_of_mem _ (List.mem_cons_self _ _))
    have hc := hall c (hd ▸ List.mem_cons_of_mem _
      (List.mem_cons_of_mem _ (List.mem_cons_self _ _)))
    have hrun : hasRun3 isMathClassChar s.data = true := by
      rw [hd]
      simp [hasRun3, ha, hb, hc]
    unfold isMathIntentText
    simp [hrun]
  · have hjx : hasJixuBoundary s.data = false := by
      by_contra h
      have hmem := aux_jixu_mem s.data (by simpa using h)
      have := hall _ hmem
      simp [isMathClassChar, isJsWs] at this
    have h01 : containsSub ("剧情推进" : String).data s.data = false :=
      aux_not_containsSub '剧' "情推进".data s.data hall (by decide)
    have h02 : containsSub ("继续剧情" : String).data s.data = false :=
      aux_not_containsSub '继' "续剧情".data s.data hall (by decide)
    have h03 : containsSub ("推进剧情" : String).data s.data = false :=
      aux_not_containsSub '推' "进剧情".data s.data hall (by decide)
    have h04 : containsSub ("采取行动" : String).data s.data = false :=
      aux_not_containsSub '采' "取行动".data s.data hall (by decide)
    have h05 : containsSub ("继续下去" : String).data s.data = false :=
      aux_not_containsSub '继' "续下去".data s.data hall (by decide)
    have h06 : containsSub ("继续写" : String).data s.data = false :=
      aux_not_containsSub '继' "续写".data s.data hall (by decide)
    have h07 : containsSub ("接着" : String).data s.data = false :=
      aux_not_containsSub '接' "着".data s.data hall (by decide)
    have h08 : containsSub ("推动剧情" : String).data s.data = false :=
      aux_not_containsSub '推' "动剧情".data s.data hall (by decide)
    have h09 : containsSub ("推进" : String).data s.data = false :=
      aux_not_containsSub '推' "进".data s.data hall (by decide)
    have h10 : containsSub ("展开" : String).data s.data = false :=
      aux_not_containsSub '展' "开".data s.data hall (by decide)
    have h11 : containsSub ("下一步" : String).data s.data = false :=
      aux_not_containsSub '下' "一步".data s.data hall (by decide)
    have h12 : containsSub ("采取下一步" : String).data s.data = false :=
      aux_not_containsSub '采' "取下一步".data s.data hall (by decide)
    unfold isStoryIntentText strHas
    rw [h01, h02, h03, h04, h05, h06, h07, h08, h09, h10, h11, h12, hjx]
    rfl

/-- Witness for C9 (amended): the pure arithmetic text `1+2` fires only the
math classifier. -/
theorem c9_intent_overlap_witness :
    isMathIntentText "1+2" = true ∧ isStoryIntentText "1+2" = false :=
  c9_intent_overlap_amended "1+2" (by decide) (by decide)

/-- C10: in both the Gemini branch and the non-preserve-structure
OpenAI-compatible branch, when strict-latest is off, the math (resp. story)
intent rule is enabled with non-empty text, and the branch's last user text
is non-empty and classified as math (resp. story), the anchor equals the
last user text and the rule text is pushed by both the last-user-text check
and the anchor check, so it occurs at least twice in the assembled
system-instruction fragment list. -/
theorem c10_intent_rule_twice (cfg : GatewayConfig)
    (lang hdr sysText charName userName uid : String) (chars : List CharCard)
    (items : List WItem) (msgs : List Message)
    (hstrict : cfg.strictLatestOnly = false) :
    (cfg.intentRuleMath = true → mathRuleText cfg lang ≠ "" →
      lastUserTextG msgs hdr ≠ "" → isMathIntentText (lastUserTextG msgs hdr) = true →
      anchorG msgs hdr = lastUserTextG msgs hdr ∧
      2 ≤ List.count (mathRuleText cfg lang)
        (sysListGemini cfg lang sysText charName userName uid chars items
          (lastUserTextG msgs hdr) (anchorG msgs hdr))) ∧
    (cfg.intentRuleStory = true → storyRuleText cfg lang ≠ "" →
      lastUserTextG msgs hdr ≠ "" → isStoryIntentText (lastUserTextG msgs hdr) = true →
      anchorG msgs hdr = lastUserTextG msgs hdr ∧
      2 ≤ List.count (storyRuleText cfg lang)
        (sysListGemini cfg lang sysText charName userName uid chars items
          (lastUserTextG msgs hdr) (anchorG msgs hdr))) ∧
    (cfg.intentRuleMath = true → mathRuleText cfg lang ≠ "" →
      lastUserTextOC msgs hdr ≠ "" → isMathIntentText (lastUserTextOC msgs hdr) = true →
      anchorOC msgs hdr = lastUserTextOC msgs hdr ∧
      2 ≤ List.count (mathRuleText cfg lang)
        (sysListCompat cfg lang sysText charName userName uid chars
          (lastUserTextOC msgs hdr) (anchorOC msgs hdr))) ∧
    (cfg.intentRuleStory = true → storyRuleText cfg lang ≠ "" →
      lastUserTextOC msgs hdr ≠ "" → isStoryIntentText (lastUserTextOC msgs hdr) = true →
      anchorOC msgs hdr = lastUserTextOC msgs hdr ∧
      2 ≤ List.count (storyRuleText cfg lang)
        (sysListCompat cfg lang sysText charName userName uid chars
          (lastUserTextOC msgs hdr) (anchorOC msgs hdr))) := by
  refine ⟨?_, ?_, ?_, ?_⟩
  · intro hm hr hlu hmath
    have hab : anchorG msgs hdr = lastUserTextG msgs hdr := by
      unfold anchorG
      simp [hlu]
    refine ⟨hab, ?_⟩
    rw [hab]
    have h1 := aux_fragRules_math_count cfg lang (lastUserTextG msgs hdr)
      hstrict hlu hmath hm hr
    simp only [sysListGemini, List.count_append]
    omega
  · intro hs hr hlu hstory
    have hab : anchorG msgs hdr = lastUserTextG msgs hdr := by
      unfold anchorG
      simp [hlu]
    refine ⟨hab, ?_⟩
    rw [hab]
    have h1 := aux_fragRules_story_count cfg lang (lastUserTextG msgs hdr)
      hstrict hlu hstory hs hr
    simp only [sysListGemini, List.count_append]
    omega
  · intro hm hr hlu hmath
    have hab : anchorOC msgs hdr = lastUserTextOC msgs hdr := by
      unfold anchorOC
      simp [hlu]
    refine ⟨hab, ?_⟩
    rw [hab]
    have h1 := aux_fragRules_math_count cfg lang (lastUserTextOC msgs hdr)
      hstrict hlu hmath hm hr
    simp only [sysListCompat, List.count_append]
    omega
  · intro hs hr hlu hstory
    have hab : anchorOC msgs hdr = lastUserTextOC msgs hdr := by
      unfold anchorOC
      simp [hlu]
    refine ⟨hab, ?_⟩
    rw [hab]
    have h1 := aux_fragRules_story_count cfg lang (lastUserTextOC msgs hdr)
      hstrict hlu hstory hs hr
    simp only [sysListCompat, List.count_append]
    omega

set_option maxRecDepth 8192 in
/-- Witness for C10 at concrete inputs: under the default configuration
with English UI, the math conjunct at the single user message `1+2=?`
(Gemini branch) and the story conjunct at `继续 吧`
(OpenAI-compatible branch). -/
theorem c10_intent_rule_twice_witness :
    (anchorG [Message.mk "user" (.jstr "1+2=?")] "" =
      lastUserTextG [Message.mk "user" (.jstr "1+2=?")] "" ∧
     2 ≤ List.count (mathRuleText defaultConfig "en")
       (sysListGemini defaultConfig "en" "" "" "" "" [] []
         (lastUserTextG [Message.mk "user" (.jstr "1+2=?")] "")
         (anchorG [Message.mk "user" (.jstr "1+2=?")] ""))) ∧
    (anchorOC [Message.mk "user" (.jstr "继续 吧")] "" =
      lastUserTextOC [Message.mk "user" (.jstr "继续 吧")] "" ∧
     2 ≤ List.count (storyRuleText defaultConfig "en")
       (sysListCompat defaultConfig "en" "" "" "" "" []
         (lastUserTextOC [Message.mk "user" (.jstr "继续 吧")] "")
         (anchorOC [Message.mk "user" (.jstr "继续 吧")] ""))) :=
  ⟨(c10_intent_rule_twice defaultConfig "en" "" "" "" "" "" [] []
      [Message.mk "user" (.jstr "1+2=?")] (by decide)).1
      (by decide) (by decide) (by decide) (by decide),
   (c10_intent_rule_twice defaultConfig "en" "" "" "" "" "" [] []
      [Message.mk "user" (.jstr "继续 吧")] (by decide)).2.2.2
      (by decide) (by decide) (by decide) (by decide)⟩
